import Mathlib

/-!
Verification of the `micro-codec-grpc` gRPC codec.

The repository holds two generations of the same codec, both in Go package
`grpc`:
* `src/grpc.go` — the codec facade plus the length-prefixed frame codec
  (`decode` / `encode`); its marshal dispatch recognises two protocol-buffer
  families (`google.golang.org/protobuf` and the legacy
  `github.com/golang/protobuf`).  Embedded below in namespace `V1`.
* `src/unnamed/part_000` — the newer variant (imports `go.unistack.org/micro/v3`);
  only the new protocol-buffer family, plus an external "flatten" reflection
  hook.  Embedded below in namespace `V2`.

Shared pieces (the frame codec from the second half of `src/grpc.go`, and
`ReadHeader`, which is textually identical in both files) are embedded once at
top level.

Modelling conventions:
* Go byte slices are `List Nat` (entries intended `< 256`); Go strings are
  Lean `String`; `uint8` / `uint32` values are `Nat` with explicit `% 2 ^ w`
  where the Go code performs a converting cast.
* The `io.Reader` handed to `decode` is modelled with `bytes.Reader`
  semantics: a pure byte list; a `Read` into a buffer of size `k` returns
  `(0, io.EOF)` when the list is exhausted and otherwise `min k remaining`
  bytes with a nil error, leaving the untouched tail of the destination
  buffer zero-initialised (Go's `make`).  `decode` additionally returns the
  unconsumed remainder of the stream, which stands for the final position of
  the reader.
* The `io.Writer` used by `encode` / `Write` is modelled as an infallible
  sink; the bytes written are returned.
* Calls into external marshalling libraries (`proto.Marshal`,
  `encoding/json`, jsonpb, …) are represented by explicit `ext…` result
  constructors recording which external routine the codec delegated to; all
  control flow of the repository itself is modelled exactly.
-/

set_option maxHeartbeats 1000000
set_option maxRecDepth 4096

/-- Errors surfaced by the codec.  The two size errors carry the offending
length and the applicable limit, mirroring the two `fmt.Errorf` calls in
`decode` (`src/grpc.go:302-307`); the remaining constructors stand for
`io.ErrUnexpectedEOF`, `codec.ErrInvalidMessage` and
`codec.ErrUnknownContentType`. -/
inductive GErr where
  | tooLargeMachine (length limit : Nat)
  | tooLargeMax (length limit : Nat)
  | unexpectedEOF
  | errInvalidMessage
  | errUnknownContentType
deriving DecidableEq

/-- Modelled from the spec: the `Error()` texts of the external sentinel
errors (`io.ErrUnexpectedEOF` from the Go standard library,
`codec.ErrInvalidMessage` and `codec.ErrUnknownContentType` from the micro
framework, which are outside `src/`).  The size-error texts are the
`fmt.Errorf` format strings that do appear in `src/grpc.go:303,306`. -/
def errText : GErr → String
  | .tooLargeMachine l lim =>
      "grpc: received message larger than max length allowed on current machine (" ++
        toString l ++ " vs. " ++ toString lim ++ ")"
  | .tooLargeMax l lim =>
      "grpc: received message larger than max (" ++ toString l ++ " vs. " ++ toString lim ++ ")"
  | .unexpectedEOF => "unexpected EOF"
  | .errInvalidMessage => "invalid message"
  | .errUnknownContentType => "unknown content type"

/-- `binary.BigEndian.Uint32` over the four bytes `header[1:5]`
(`src/grpc.go:294`). -/
def be32 (b1 b2 b3 b4 : Nat) : Nat :=
  b1 * 16777216 + b2 * 65536 + b3 * 256 + b4

/-- `maxInt = int(^uint(0) >> 1)` (`src/grpc.go:276`) on a 64-bit host.
`decode` below takes the host limit as a parameter `maxI`; this constant is
the value used on the common platform. -/
def maxInt64 : Nat := 9223372036854775807

/-- `(c *grpcCodec) decode` (`src/grpc.go:279-319`).  `maxI` is the
platform's `maxInt`, `maxM` the configured maximum message size
(`codec.DefaultMaxMsgSize`, a global of the external micro framework).
Returns `(compression flag, payload, error, rest of stream)`; the Go
function returns the first three, the fourth is the reader's final
position.

Faithfulness notes: the Go code issues a single `r.Read(header[:])` — under
the reader model this returns EOF only on an exhausted stream, and a short
read leaves the tail of the 5-byte buffer zero.  The payload read likewise is
a single `r.Read(msg)`, which reports `io.EOF` (converted to
`io.ErrUnexpectedEOF`) only when the stream is already exhausted, and
otherwise fills what it can, leaving the rest of `msg` zero. -/
def decode (maxI maxM : Nat) (s : List Nat) : Nat × List Nat × Option GErr × List Nat :=
  match s with
  | [] => (0, [], none, [])
  | _ :: _ =>
    let header := s.take 5 ++ List.replicate (5 - s.length) 0
    let rest := s.drop 5
    let cf := header.getD 0 0
    let length := be32 (header.getD 1 0) (header.getD 2 0) (header.getD 3 0) (header.getD 4 0)
    if length = 0 then (cf, [], none, rest)
    else if maxI < length then (cf, [], some (.tooLargeMachine length maxI), rest)
    else if maxM < length then (cf, [], some (.tooLargeMax length maxM), rest)
    else if rest.isEmpty then (cf, [], some .unexpectedEOF, rest)
    else (cf, rest.take length ++ List.replicate (length - rest.length) 0, none, rest.drop length)

/-- `(c *grpcCodec) encode` (`src/grpc.go:321-338`): 5-byte header
(compression flag, then `uint32(len(buf))` big-endian) followed by the
payload.  The writer is an infallible sink, so the written bytes are the
result. -/
def encode (cf : Nat) (buf : List Nat) : List Nat :=
  let L := buf.length % 4294967296
  cf :: L / 16777216 % 256 :: L / 65536 % 256 :: L / 256 % 256 :: L % 256 :: buf

/-- Go `strings.Split` restricted to a one-character separator, on the
character list of the string.  `strings.Split` never returns an empty
slice. -/
def splitChars (sep : Char) : List Char → List (List Char)
  | [] => [[]]
  | c :: cs =>
    match splitChars sep cs with
    | [] => [[]]
    | r :: rs => if c = sep then [] :: r :: rs else (c :: r) :: rs

/-- Go `strings.Split(s, sep)` for a one-character separator. -/
def goSplit (s : String) (sep : Char) : List String :=
  (splitChars sep s.data).map fun l => ⟨l⟩

/-- Go `strings.Join`. -/
def goJoin (sep : String) : List String → String
  | [] => ""
  | [a] => a
  | a :: rest => a ++ sep ++ goJoin sep rest

/-- `codec.MessageType` with its three values `codec.Request`,
`codec.Response`, `codec.Error`, as used by `ReadHeader` and `Write` in both
source files (the type itself lives in the external micro framework). -/
inductive MessageType where
  | Request
  | Response
  | Error
deriving DecidableEq

/-- The `codec.Message` fields this codec reads and mutates: the header map
(a Go `map[string]string`, modelled as a total function returning `""` for
absent keys, which is Go map-lookup semantics), the message kind (the Go
field is named `Type`, a reserved word in Lean, hence `MsgType`), `Target`,
`Endpoint`, `Body` and the error string. -/
structure Message where
  Header : String → String
  MsgType : MessageType
  Target : String
  Endpoint : String
  Body : List Nat
  Error : String

/-- `m.Header[k] = v` — functional update of the header map. -/
def hset (h : String → String) (k v : String) : String → String :=
  fun k' => if k' = k then v else h k'

/-- The codec instance state: the mutable `ContentType` field of
`grpcCodec`. -/
structure CodecState where
  ContentType : String
deriving DecidableEq

/-- The `if ct := m.Header["content-type"]; len(ct) > 0 { c.ContentType = ct }`
prologue shared by `ReadHeader` and `Write` in both files. -/
def refreshCT (c : CodecState) (m : Message) : CodecState :=
  if m.Header "content-type" ≠ "" then ⟨m.Header "content-type"⟩ else c

/-- `(c *grpcCodec) ReadHeader` — textually identical in
`src/grpc.go:48-70` and `src/unnamed/part_000:45-67` (the fallback header
names `Micro-Service` / `Micro-Endpoint` are literals in `src/grpc.go:56-57`;
`part_000` spells them `metadata.HeaderService` / `metadata.HeaderEndpoint`).
Returns the updated codec state and message, or the
`errors.New("Unknown request path")` failure. -/
def ReadHeader (c : CodecState) (m : Message) : Except String (CodecState × Message) :=
  let c := refreshCT c m
  let path := m.Header ":path"
  if path = "" ∨ path.data.headD ' ' ≠ '/' then
    .ok (c, { m with Target := m.Header "Micro-Service", Endpoint := m.Header "Micro-Endpoint" })
  else
    let parts := goSplit path '/'
    if parts.length ≠ 3 then
      .error "Unknown request path"
    else
      let service := goSplit (parts.getD 1 "") '.'
      .ok (c, { m with
                Endpoint := goJoin "." [service.getLastD "", parts.getD 2 ""],
                Target := goJoin "." service.dropLast })

namespace V1

/-- Payload values for the `src/grpc.go` codec, by the runtime capabilities
its type switches test: the nil interface, `*codec.Frame`, a protocol-buffer
message (with flags for whether it satisfies the newer
`google.golang.org/protobuf` interface and/or the older
`github.com/golang/protobuf` interface), or any other value. -/
inductive Value where
  | vnil
  | vframe (data : List Nat)
  | vproto (isNew : Bool) (isOld : Bool)
  | vother
deriving DecidableEq

/-- Result of `(c *grpcCodec) Marshal` (`src/grpc.go:106-135`): bytes, an
error, or delegation to an external marshaler (`JsonpbMarshaler.Marshal`,
`proto.Marshal`, `OldJsonpbMarshaler.MarshalToString`, `oldproto.Marshal`,
`json.Marshal`). -/
inductive MRes where
  | bytes (b : List Nat)
  | fail (e : GErr)
  | extNewJson
  | extNewProto
  | extOldJson
  | extOldProto
  | extJson
deriving DecidableEq

/-- `(c *grpcCodec) Marshal` (`src/grpc.go:106-135`).  The type switch
matches in source order: `nil`, `*codec.Frame`, `proto.Message` (newer
family), `oldproto.Message` (older family), then `default`; every branch that
falls out of the switch returns `codec.ErrUnknownContentType`. -/
def Marshal (ct : String) (b : Value) : MRes :=
  match b with
  | .vnil => .bytes []
  | .vframe data => .bytes data
  | .vproto isNew isOld =>
    if isNew then
      if ct = "application/grpc+json" then .extNewJson
      else if ct = "application/grpc+proto" ∨ ct = "application/grpc" then .extNewProto
      else .fail .errUnknownContentType
    else if isOld then
      if ct = "application/grpc+json" then .extOldJson
      else if ct = "application/grpc+proto" ∨ ct = "application/grpc" then .extOldProto
      else .fail .errUnknownContentType
    else
      if ct = "application/grpc+json" then .extJson
      else .fail .errUnknownContentType
  | .vother =>
    if ct = "application/grpc+json" then .extJson
    else .fail .errUnknownContentType

/-- Result of `(c *grpcCodec) Unmarshal` (`src/grpc.go:72-104`): success, an
error, or delegation to an external unmarshaler
(`OldJsonpbUnmarshaler.Unmarshal`, `oldproto.Unmarshal`,
`JsonpbUnmarshaler.Unmarshal`, `proto.Unmarshal`, `json.Unmarshal`). -/
inductive URes where
  | ok
  | fail (e : GErr)
  | extNewJson
  | extNewProto
  | extOldJson
  | extOldProto
  | extJson
deriving DecidableEq

/-- `(c *grpcCodec) Unmarshal` (`src/grpc.go:72-104`).  The input slice is
`Option (List Nat)` because the guard is `d == nil` — a non-nil empty slice
passes it.  The type switch matches in source order: `nil`, `*codec.Frame`,
`oldproto.Message` (older family first!), `proto.Message`, then `default`;
every branch that falls out of the switch returns `codec.ErrInvalidMessage` —
including the `*codec.Frame` branch, whose body `v.Data = d` has no
`return`. -/
def Unmarshal (ct : String) (d : Option (List Nat)) (b : Value) : Value × URes :=
  match d with
  | none => (b, .ok)
  | some dd =>
    match b with
    | .vnil => (b, .ok)
    | .vframe _ => (.vframe dd, .fail .errInvalidMessage)
    | .vproto isNew isOld =>
      if isOld then
        if ct = "application/grpc+json" then (b, .extOldJson)
        else if ct = "application/grpc+proto" ∨ ct = "application/grpc" then (b, .extOldProto)
        else (b, .fail .errInvalidMessage)
      else if isNew then
        if ct = "application/grpc+json" then (b, .extNewJson)
        else if ct = "application/grpc+proto" ∨ ct = "application/grpc" then (b, .extNewProto)
        else (b, .fail .errInvalidMessage)
      else
        if ct = "application/grpc+json" then (b, .extJson)
        else (b, .fail .errInvalidMessage)
    | .vother =>
      if ct = "application/grpc+json" then (b, .extJson)
      else (b, .fail .errInvalidMessage)

end V1

namespace V2

/-- Payload values for the `src/unnamed/part_000` codec: nil interface,
`*codec.Frame`, a `proto.Message`, or any other value. -/
inductive Value where
  | vnil
  | vframe (data : List Nat)
  | vproto
  | vother
deriving DecidableEq

/-- Modelled from the spec: `rutil.StructFieldByTag(v, options.TagName,
flattenTag)` is the external reflection helper that "may replace `value` with
a tagged sub-field of a larger struct" and is explicitly out of scope.  For
the value shapes modelled here (frame, protocol-buffer message, generic
value — none a struct carrying a flatten-tagged field) it finds no such field
and returns a non-nil error, leaving `v` unchanged, hence `none`. -/
def structFieldByTag (_ : Value) : Option Value := none

/-- `v.(proto.Message)` capability test. -/
def Value.isProto : Value → Bool
  | .vproto => true
  | _ => false

/-- Result of the `part_000` `Unmarshal` / `ReadBody`: success, an error, or
delegation to `json.Unmarshal`, `unmarshalOptions.Unmarshal` (jsonpb) or
`proto.Unmarshal`. -/
inductive URes where
  | ok
  | fail (e : GErr)
  | extJsonUnmarshal
  | extJsonpbUnmarshal
  | extProtoUnmarshal
deriving DecidableEq

/-- `(c *grpcCodec) Unmarshal` (`src/unnamed/part_000:69-111`).  The options
fold and the context override of the jsonpb configuration only select the
configuration passed to the external unmarshalers, which are opaque here; the
flatten hook is `structFieldByTag`.  Note the second
`application/grpc+json` test (inside the final switch) is unreachable — the
first one already returned — but is kept for fidelity. -/
def Unmarshal (ct : String) (d : List Nat) (v : Value) : Value × URes :=
  if v = .vnil ∨ d.length = 0 then (v, .ok)
  else
    let v := (structFieldByTag v).getD v
    match v with
    | .vframe _ => (.vframe d, .ok)
    | v' =>
      if ct = "application/grpc+json" then (v', .extJsonUnmarshal)
      else if ¬ v'.isProto then (v', .fail .errInvalidMessage)
      else if ct = "application/grpc+json" then (v', .extJsonpbUnmarshal)
      else if ct = "application/grpc+proto" ∨ ct = "application/grpc" then (v', .extProtoUnmarshal)
      else (v', .fail .errInvalidMessage)

/-- Result of the `part_000` `Marshal`: bytes, an error, or delegation to
`json.Marshal`, `marshalOptions.Marshal` (jsonpb) or `proto.Marshal`. -/
inductive MRes where
  | bytes (b : List Nat)
  | fail (e : GErr)
  | extJsonMarshal
  | extJsonpbMarshal
  | extProtoMarshal
deriving DecidableEq

/-- `(c *grpcCodec) Marshal` (`src/unnamed/part_000:113-154`).  As in
`Unmarshal`, the jsonpb branch of the final switch is dead code kept for
fidelity; the fall-out-of-switch error here is
`codec.ErrUnknownContentType`. -/
def Marshal (ct : String) (v : Value) : MRes :=
  match v with
  | .vnil => .bytes []
  | v₀ =>
    let v₁ := (structFieldByTag v₀).getD v₀
    match v₁ with
    | .vframe a => .bytes a
    | v' =>
      if ct = "application/grpc+json" then .extJsonMarshal
      else if ¬ v'.isProto then .fail .errInvalidMessage
      else if ct = "application/grpc+json" then .extJsonpbMarshal
      else if ct = "application/grpc+proto" ∨ ct = "application/grpc" then .extProtoMarshal
      else .fail .errUnknownContentType

/-- `(c *grpcCodec) ReadBody` (`src/unnamed/part_000:156-170`).  The frame
codec of this file version is not under `src/`; the shared `decode` above
(from `src/grpc.go`, same repository and signature `(uint8, []byte, error)`)
is used.  Note `n`, the first value returned by `decode`, is the
compression-flag byte, and the source tests `n == 0` before unmarshalling. -/
def ReadBody (maxI maxM : Nat) (ct : String) (s : List Nat) (v : Value) : Value × URes :=
  if v = .vnil then (v, .ok)
  else
    match decode maxI maxM s with
    | (n, buf, err, _) =>
      match err with
      | some e => (v, .fail e)
      | none => if n = 0 then (v, .ok) else Unmarshal ct buf v

/-- Result of the `part_000` `Write`: normal return `nil` (with the final
codec state, message and bytes written to the connection), an error return,
a Go runtime panic, or a state whose continuation depends on the result of an
external marshaler. -/
inductive WriteRes where
  | done (c : CodecState) (m : Message) (out : List Nat)
  | failed (e : GErr) (c : CodecState) (m : Message) (out : List Nat)
  | panicked
  | extDepends (c : CodecState) (m : Message)

/-- The tail of `Write` after the header synthesis
(`src/unnamed/part_000:206-218`): marshal the value, on failure set
`grpc-status = "8"` and `grpc-message` and return the error; on an empty
result return with nothing written; otherwise store the body and frame it
with compression flag 0. -/
def writeBody (c : CodecState) (m : Message) (v : Value) : WriteRes :=
  match Marshal c.ContentType v with
  | .fail e =>
    .failed e c { m with Header := hset (hset m.Header "grpc-status" "8") "grpc-message" (errText e) } []
  | .bytes buf =>
    if buf.length = 0 then .done c m []
    else .done c { m with Body := buf } (encode 0 buf)
  | _ => .extDepends c m

/-- `(c *grpcCodec) Write` (`src/unnamed/part_000:172-219`).  The `Request`
branch indexes `parts[1]` of `strings.Split(m.Endpoint, ".")` without a
length check: when the split has fewer than two elements this is a Go
index-out-of-range panic, modelled by `WriteRes.panicked`.  (`src/grpc.go`'s
`Write`, lines 175-256, synthesises the same headers and handles marshal
failure identically; only its marshal step is inlined.) -/
def Write (c : CodecState) (m : Message) (v : Value) : WriteRes :=
  let c := refreshCT c m
  match m.MsgType with
  | .Request =>
    let parts := goSplit m.Endpoint '.'
    if parts.length < 2 then .panicked
    else
      let hdr := hset m.Header ":method" "POST"
      let hdr := hset hdr ":path"
        ("/" ++ m.Target ++ "." ++ parts.getD 0 "" ++ "/" ++ parts.getD 1 "")
      let hdr := hset hdr ":proto" "HTTP/2.0"
      let hdr := hset hdr "te" "trailers"
      let hdr := hset hdr "user-agent" "grpc-go/1.0.0"
      let hdr := hset hdr ":authority" m.Target
      let hdr := hset hdr "content-type" c.ContentType
      writeBody c { m with Header := hdr } v
  | .Response =>
    let hdr := hset m.Header "Trailer" "grpc-status"
    let hdr := hset hdr "content-type" c.ContentType
    let hdr := hset hdr ":status" "200"
    let hdr := hset hdr "grpc-status" "0"
    writeBody c { m with Header := hdr } v
  | .Error =>
    let hdr := hset m.Header "Trailer" "grpc-status, grpc-message"
    let hdr :=
      if m.Error = "EOS" then hset hdr "grpc-status" "0"
      else hset (hset hdr "grpc-message" m.Error) "grpc-status" "13"
    .done c { m with Header := hdr } []

end V2

/-! ### Helper lemmas -/

theorem hset_get_same (h : String → String) (k v : String) : hset h k v k = v := by
  simp [hset]

theorem hset_get_other (h : String → String) (k v k' : String) (hne : k' ≠ k) :
    hset h k v k' = h k' := by
  simp [hset, hne]

theorem goJoin_pair (sep a b : String) : goJoin sep [a, b] = a ++ sep ++ b := rfl

theorem splitChars_ne_nil (sep : Char) (l : List Char) : splitChars sep l ≠ [] := by
  cases l with
  | nil => simp [splitChars]
  | cons c cs =>
    unfold splitChars
    cases hsc : splitChars sep cs with
    | nil => simp
    | cons r rs => by_cases hc : c = sep <;> simp [hc]

theorem splitChars_length (sep : Char) (l : List Char) :
    (splitChars sep l).length = l.count sep + 1 := by
  induction l with
  | nil => simp [splitChars]
  | cons c cs ih =>
    unfold splitChars
    cases hsc : splitChars sep cs with
    | nil => exact absurd hsc (splitChars_ne_nil sep cs)
    | cons r rs =>
      rw [hsc] at ih
      by_cases hc : c = sep <;> simp [hc, List.count_cons] at ih ⊢ <;> omega

theorem goSplit_length (s : String) (sep : Char) :
    (goSplit s sep).length = s.data.count sep + 1 := by
  unfold goSplit
  rw [List.length_map]
  exact splitChars_length sep s.data

theorem writeBody_ne_panicked (c : CodecState) (m : Message) (v : V2.Value) :
    V2.writeBody c m v ≠ .panicked := by
  unfold V2.writeBody
  split
  · simp
  · split <;> simp
  · simp

theorem be32_put (L : Nat) (h : L < 4294967296) :
    be32 (L / 16777216 % 256) (L / 65536 % 256) (L / 256 % 256) (L % 256) = L := by
  unfold be32
  omega

theorem decode_cons5 (maxI maxM b0 b1 b2 b3 b4 : Nat) (rest : List Nat) :
    decode maxI maxM (b0 :: b1 :: b2 :: b3 :: b4 :: rest) =
      if be32 b1 b2 b3 b4 = 0 then (b0, [], none, rest)
      else if maxI < be32 b1 b2 b3 b4 then
        (b0, [], some (.tooLargeMachine (be32 b1 b2 b3 b4) maxI), rest)
      else if maxM < be32 b1 b2 b3 b4 then
        (b0, [], some (.tooLargeMax (be32 b1 b2 b3 b4) maxM), rest)
      else if rest.isEmpty then (b0, [], some .unexpectedEOF, rest)
      else (b0, rest.take (be32 b1 b2 b3 b4) ++
              List.replicate (be32 b1 b2 b3 b4 - rest.length) 0, none,
            rest.drop (be32 b1 b2 b3 b4)) := rfl

/-! ### Claim theorems -/

/-- C2: for every compression flag (a `uint8`) and every payload whose length
is at most the configured maximum message size and representable on the host
(which, through the 4-byte wire length field, also means below `2 ^ 32`),
decoding the bytes produced by `encode` returns exactly the original
compression flag and the original payload, with no error (and the stream is
fully consumed). -/
theorem encode_decode_roundtrip (maxI maxM cf : Nat) (buf : List Nat)
    (_hcf : cf < 256) (hmax : buf.length ≤ maxM) (hhost : buf.length ≤ maxI)
    (hwire : buf.length < 4294967296) :
    decode maxI maxM (encode cf buf) = (cf, buf, none, []) := by
  have hL : buf.length % 4294967296 = buf.length := Nat.mod_eq_of_lt hwire
  cases buf with
  | nil =>
    rw [show encode cf [] = [cf, 0, 0, 0, 0] from rfl, decode_cons5]
    simp [be32]
  | cons b bs =>
    simp only [encode]
    rw [decode_cons5, hL, be32_put _ (hL ▸ Nat.mod_lt _ (by norm_num))]
    rw [if_neg (by simp), if_neg (by omega), if_neg (by omega), if_neg (by simp)]
    simp

/-- C2 witness: a concrete round trip through the wire format. -/
theorem encode_decode_roundtrip_w :
    decode maxInt64 4194304 (encode 1 [5, 6]) = (1, [5, 6], none, []) :=
  encode_decode_roundtrip maxInt64 4194304 1 [5, 6] (by decide) (by decide) (by decide) (by decide)

/-- C6 (evaluation at the failing input): `decode` on an exhausted stream does
return the clean end-of-stream triple (flag 0, empty payload, no error) — the
first half of the claim holds — but on a stream holding a single byte `1`
(a short header read that a `bytes.Reader`-style reader reports with a nil
error), `decode` silently zero-fills the four missing header bytes, computes
length 0 from them, and returns flag 1 with no error instead of surfacing the
short read as an error, because the source uses a bare `r.Read(header[:])`
and ignores the byte count on the nil-error path. -/
theorem decode_short_header_silent :
    decode maxInt64 4194304 [] = (0, [], none, []) ∧
    decode maxInt64 4194304 [1] = (1, [], none, []) := by
  constructor <;> rfl

/-- C7: whenever the declared big-endian length of a frame header exceeds the
host limit `maxI` or the configured maximum message size `maxM`, `decode`
fails with a size-exceeded error carrying the offending length and the
applicable limit — a distinct error constructor for each of the two limits,
the host limit checked first — and consumes no payload bytes: the stream
remainder it leaves is exactly the bytes following the 5-byte header, and the
returned payload is empty. -/
theorem decode_size_exceeded (maxI maxM b0 b1 b2 b3 b4 : Nat) (rest : List Nat)
    (h : maxI < be32 b1 b2 b3 b4 ∨ maxM < be32 b1 b2 b3 b4) :
    decode maxI maxM (b0 :: b1 :: b2 :: b3 :: b4 :: rest) =
      (b0, [],
        some (if maxI < be32 b1 b2 b3 b4 then GErr.tooLargeMachine (be32 b1 b2 b3 b4) maxI
              else GErr.tooLargeMax (be32 b1 b2 b3 b4) maxM),
        rest) := by
  rw [decode_cons5]
  rw [if_neg (by omega)]
  by_cases h1 : maxI < be32 b1 b2 b3 b4
  · rw [if_pos h1, if_pos h1]
  · rw [if_neg h1, if_neg h1, if_pos (by omega)]

/-- C7 witness: a frame declaring length `2 ^ 31` on a 32-bit host
(`maxInt = 2 ^ 31 - 1`) fails with the machine-limit error before any payload
byte is read. -/
theorem decode_size_exceeded_w :
    decode 2147483647 4194304 [0, 128, 0, 0, 0] =
      (0, [], some (GErr.tooLargeMachine 2147483648 2147483647), []) := by
  have h := decode_size_exceeded 2147483647 4194304 0 128 0 0 0 [] (Or.inl (by decide))
  rw [if_pos (by decide)] at h
  simpa [be32] using h

/-- C3: for every message of kind `Error`, `Write` sets `grpc-status` to "0"
when the message's error string is "EOS" and otherwise sets `grpc-message`
to that string and `grpc-status` to "13"; in both cases it returns
successfully, without marshalling any body (the result is independent of the
value and `Body` is untouched, and in the EOS case `grpc-message` is also
untouched) and without writing any bytes to the output stream. -/
theorem write_error_status (c : CodecState) (m : Message) (v : V2.Value)
    (h : m.MsgType = .Error) :
    ∃ c' m', V2.Write c m v = .done c' m' [] ∧
      m'.Header "grpc-status" = (if m.Error = "EOS" then "0" else "13") ∧
      (m.Error ≠ "EOS" → m'.Header "grpc-message" = m.Error) ∧
      (m.Error = "EOS" → m'.Header "grpc-message" = m.Header "grpc-message") ∧
      m'.Body = m.Body := by
  obtain ⟨hd, ty, tg, ep, bd, er⟩ := m
  simp only at h
  subst h
  by_cases he : er = "EOS"
  · subst he
    refine ⟨_, _, rfl, ?_, ?_, ?_, ?_⟩ <;> simp [hset]
  · refine ⟨_, _, rfl, ?_, ?_, ?_, ?_⟩ <;> simp [hset, he]

/-- C3 witness: an `Error`-kind message with error text "boom" comes back
`grpc-status = "13"`, `grpc-message = "boom"`, nothing written. -/
theorem write_error_status_w :
    ∃ c' m', V2.Write ⟨"application/grpc"⟩
        { Header := fun _ => "", MsgType := .Error, Target := "", Endpoint := "", Body := [],
          Error := "boom" } V2.Value.vnil = .done c' m' [] ∧
      m'.Header "grpc-status" = "13" ∧ m'.Header "grpc-message" = "boom" := by
  obtain ⟨c', m', h1, h2, h3, -, -⟩ :=
    write_error_status ⟨"application/grpc"⟩
      { Header := fun _ => "", MsgType := .Error, Target := "", Endpoint := "", Body := [],
        Error := "boom" } V2.Value.vnil rfl
  rw [if_neg (by decide)] at h2
  exact ⟨c', m', h1, h2, h3 (by decide)⟩

theorem writeBody_fail (c : CodecState) (m : Message) (v : V2.Value) (e : GErr)
    (hfail : V2.Marshal c.ContentType v = .fail e) :
    ∃ m', V2.writeBody c m v = .failed e c m' [] ∧
      m'.Header "grpc-status" = "8" ∧ m'.Header "grpc-message" = errText e := by
  refine ⟨{ m with
      Header := hset (hset m.Header "grpc-status" "8") "grpc-message" (errText e) }, ?_, ?_, ?_⟩
  · simp only [V2.writeBody]
    rw [hfail]
  · simp [hset]
  · simp [hset]

/-- C8: for a `Request` or `Response` message (for `Request`, under the
endpoint precondition that avoids the C10 panic), if the marshal step fails
with error `e`, then `Write` returns that error, having set `grpc-status`
to "8" and `grpc-message` to the error's text on the message, and writes no
bytes to the output stream. -/
theorem write_marshal_failure (c : CodecState) (m : Message) (v : V2.Value) (e : GErr)
    (hk : m.MsgType = .Request ∨ m.MsgType = .Response)
    (hreq : m.MsgType = .Request → 2 ≤ (goSplit m.Endpoint '.').length)
    (hfail : V2.Marshal (refreshCT c m).ContentType v = .fail e) :
    ∃ m', V2.Write c m v = .failed e (refreshCT c m) m' [] ∧
      m'.Header "grpc-status" = "8" ∧ m'.Header "grpc-message" = errText e := by
  obtain ⟨hd, ty, tg, ep, bd, er⟩ := m
  rcases hk with h | h <;> simp only at h <;> subst h
  · have hp : ¬ (goSplit ep '.').length < 2 := by
      have := hreq rfl
      simp only at this
      omega
    simp only [V2.Write]
    rw [if_neg hp]
    exact writeBody_fail _ _ v e hfail
  · simp only [V2.Write]
    exact writeBody_fail _ _ v e hfail

/-- C8 witness: marshalling a generic value under content type
`application/grpc` fails with `ErrInvalidMessage`; a `Response` write then
reports status "8" with that error text and writes nothing. -/
theorem write_marshal_failure_w :
    ∃ m', V2.Write ⟨"application/grpc"⟩
        { Header := fun _ => "", MsgType := .Response, Target := "", Endpoint := "", Body := [],
          Error := "" } V2.Value.vother =
      .failed GErr.errInvalidMessage
        (refreshCT ⟨"application/grpc"⟩
          { Header := fun _ => "", MsgType := .Response, Target := "", Endpoint := "", Body := [],
            Error := "" }) m' [] ∧
      m'.Header "grpc-status" = "8" ∧ m'.Header "grpc-message" = "invalid message" :=
  write_marshal_failure ⟨"application/grpc"⟩
    { Header := fun _ => "", MsgType := .Response, Target := "", Endpoint := "", Body := [],
      Error := "" } V2.Value.vother GErr.errInvalidMessage
    (Or.inr rfl) (fun hr => absurd hr (by decide)) rfl

/-- C10: a `Request`-kind `Write` panics (index out of range on `parts[1]`)
exactly when the message's `Endpoint` contains no '.' — so `Write` is total
on requests only under the unstated precondition that the endpoint has at
least one dot, and the failure is a Go runtime panic rather than an error
return. -/
theorem write_request_endpoint_dot (c : CodecState) (m : Message) (v : V2.Value)
    (h : m.MsgType = .Request) :
    V2.Write c m v = .panicked ↔ '.' ∉ m.Endpoint.data := by
  have key : ((goSplit m.Endpoint '.').length < 2) ↔ '.' ∉ m.Endpoint.data := by
    rw [goSplit_length, ← List.count_eq_zero]
    omega
  simp only [V2.Write, h]
  split
  · next hlt => simp [key.1 hlt]
  · next hge => exact ⟨fun hw => absurd hw (writeBody_ne_panicked _ _ _),
      fun hm => absurd (key.2 hm) hge⟩

/-- C10 witness: writing a request whose endpoint `"Method"` has no dot
panics. -/
theorem write_request_endpoint_dot_w :
    V2.Write ⟨"application/grpc"⟩
      { Header := fun _ => "", MsgType := .Request, Target := "svc", Endpoint := "Method",
        Body := [], Error := "" } V2.Value.vnil = .panicked :=
  (write_request_endpoint_dot ⟨"application/grpc"⟩
    { Header := fun _ => "", MsgType := .Request, Target := "svc", Endpoint := "Method",
      Body := [], Error := "" } V2.Value.vnil rfl).mpr (by decide)

/-- C4: for every message whose `:path` header is non-empty and starts with
'/', `ReadHeader` fails with the error "Unknown request path" exactly when
the path does not split into three '/'-separated segments; when it does
split into three, the last '.'-separated component of the middle segment
joined with "." to the third segment becomes `Endpoint`, and the remaining
leading components rejoined with "." become `Target`. -/
theorem readHeader_path (c : CodecState) (m : Message)
    (hne : m.Header ":path" ≠ "")
    (hsl : (m.Header ":path").data.headD ' ' = '/') :
    (ReadHeader c m = .error "Unknown request path" ↔
      (goSplit (m.Header ":path") '/').length ≠ 3) ∧
    ((goSplit (m.Header ":path") '/').length = 3 →
      ∃ c' m', ReadHeader c m = .ok (c', m') ∧
        m'.Endpoint =
          (goSplit ((goSplit (m.Header ":path") '/').getD 1 "") '.').getLastD "" ++ "." ++
            (goSplit (m.Header ":path") '/').getD 2 "" ∧
        m'.Target =
          goJoin "." (goSplit ((goSplit (m.Header ":path") '/').getD 1 "") '.').dropLast) := by
  have hcond : ¬ (m.Header ":path" = "" ∨ (m.Header ":path").data.headD ' ' ≠ '/') := by
    push_neg
    exact ⟨hne, hsl⟩
  constructor
  · simp only [ReadHeader]
    rw [if_neg hcond]
    by_cases h3 : (goSplit (m.Header ":path") '/').length = 3
    · rw [if_neg (by omega)]
      simp [h3]
    · rw [if_pos h3]
      simp [h3]
  · intro h3
    simp only [ReadHeader]
    rw [if_neg hcond, if_neg (by omega)]
    exact ⟨_, _, rfl, by rw [goJoin_pair], rfl⟩

/-- C4 witness: path `/pkg.sub.Service/Method` yields `Target = "pkg.sub"`
and `Endpoint = "Service.Method"`. -/
theorem readHeader_path_w :
    ∃ c' m', ReadHeader ⟨"application/grpc"⟩
        { Header := fun k => if k = ":path" then "/pkg.sub.Service/Method" else "",
          MsgType := .Request, Target := "", Endpoint := "", Body := [], Error := "" } =
      .ok (c', m') ∧ m'.Endpoint = "Service.Method" ∧ m'.Target = "pkg.sub" := by
  obtain ⟨c', m', h1, h2, h3⟩ :=
    (readHeader_path ⟨"application/grpc"⟩
      { Header := fun k => if k = ":path" then "/pkg.sub.Service/Method" else "",
        MsgType := .Request, Target := "", Endpoint := "", Body := [], Error := "" }
      (by decide) (by decide)).2 (by decide)
  refine ⟨c', m', h1, ?_, ?_⟩
  · rw [h2]; decide
  · rw [h3]; decide

/-- C1 (evaluation at the failing input): with content type
`application/grpc`, a frame whose compression-flag byte is 0 — the normal,
uncompressed case — and whose payload is the non-empty `[1, 2, 3]` is
silently dropped by `ReadBody`: the `Frame` target keeps its old data `[9]`
and no error is returned, because the source compares `decode`'s first
return value (the compression flag) against 0 as if it were a byte count.
The same frame with compression flag 1 is unmarshalled into the target as
the claim describes for every frame. -/
theorem readBody_flag_as_count :
    V2.ReadBody maxInt64 4194304 "application/grpc" [0, 0, 0, 0, 3, 1, 2, 3]
      (V2.Value.vframe [9]) = (V2.Value.vframe [9], V2.URes.ok) ∧
    V2.ReadBody maxInt64 4194304 "application/grpc" [1, 0, 0, 0, 3, 1, 2, 3]
      (V2.Value.vframe [9]) = (V2.Value.vframe [1, 2, 3], V2.URes.ok) := by
  constructor <;> decide

/-- C5 counterexample: a value satisfying both protocol-buffer capability
sets is dispatched by `Unmarshal` (src/grpc.go) to the older family's
decoder, not the newer one as the claim requires — the type switch in
`Unmarshal` lists `oldproto.Message` before `proto.Message`. -/
theorem unmarshal_dual_capability_old :
    (V1.Unmarshal "application/grpc" (some [1]) (V1.Value.vproto true true)).2 =
      V1.URes.extOldProto ∧
    V1.URes.extOldProto ≠ V1.URes.extNewProto := by decide

/-- C5 amended: `Marshal` dispatches with precedence passthrough, then newer
protocol-buffer capability, then older, then generic; but `Unmarshal`
dispatches passthrough, then OLDER, then newer, then generic — so a value
satisfying both capability sets is encoded with the newer family and decoded
with the older family. -/
theorem marshal_new_unmarshal_old (ct : String) (d : List Nat)
    (hct : ct = "application/grpc" ∨ ct = "application/grpc+proto" ∨
      ct = "application/grpc+json") :
    (V1.Marshal ct (V1.Value.vproto true true) = V1.MRes.extNewProto ∨
      V1.Marshal ct (V1.Value.vproto true true) = V1.MRes.extNewJson) ∧
    ((V1.Unmarshal ct (some d) (V1.Value.vproto true true)).2 = V1.URes.extOldProto ∨
      (V1.Unmarshal ct (some d) (V1.Value.vproto true true)).2 = V1.URes.extOldJson) := by
  rcases hct with h | h | h <;> subst h
  · exact ⟨Or.inl rfl, Or.inl rfl⟩
  · exact ⟨Or.inl rfl, Or.inl rfl⟩
  · exact ⟨Or.inr rfl, Or.inr rfl⟩

/-- C5 amended witness: under `application/grpc`, the dual-capability value
marshals through the newer family's binary encoder and unmarshals through
the older family's. -/
theorem marshal_new_unmarshal_old_w :
    (V1.Marshal "application/grpc" (V1.Value.vproto true true) = V1.MRes.extNewProto ∨
      V1.Marshal "application/grpc" (V1.Value.vproto true true) = V1.MRes.extNewJson) ∧
    ((V1.Unmarshal "application/grpc" (some [1]) (V1.Value.vproto true true)).2 =
        V1.URes.extOldProto ∨
      (V1.Unmarshal "application/grpc" (some [1]) (V1.Value.vproto true true)).2 =
        V1.URes.extOldJson) :=
  marshal_new_unmarshal_old "application/grpc" [1] (Or.inl rfl)

/-- C9 counterexample: an empty but non-nil input slice is not a no-op for
`Unmarshal` in src/grpc.go — it passes the `d == nil` guard, a `Frame`
target has its `Data` overwritten with the empty slice, and because the
frame case of the type switch has no `return`, `ErrInvalidMessage` is
returned as well. -/
theorem unmarshal_empty_nonnil :
    V1.Unmarshal "application/grpc" (some []) (V1.Value.vframe [1, 2, 3]) =
      (V1.Value.vframe [], V1.URes.fail GErr.errInvalidMessage) := by decide

/-- C9 amended: a nil input or a nil target value is a silent no-op for
`Unmarshal` in both source versions (no error, target untouched); the
src/unnamed/part_000 version extends this to every zero-length input, while
the src/grpc.go version dispatches an empty non-nil input like any other
(see the counterexample). -/
theorem unmarshal_nil_noop (ct : String) (d : Option (List Nat)) (v : V1.Value)
    (dl : List Nat) (w : V2.Value)
    (h1 : d = none ∨ v = .vnil) (h2 : dl = [] ∨ w = .vnil) :
    V1.Unmarshal ct d v = (v, .ok) ∧ V2.Unmarshal ct dl w = (w, .ok) := by
  constructor
  · rcases h1 with h | h
    · subst h
      rfl
    · subst h
      cases d <;> rfl
  · have hc : w = V2.Value.vnil ∨ dl.length = 0 := by
      rcases h2 with h | h
      · right
        simp [h]
      · left
        exact h
    unfold V2.Unmarshal
    rw [if_pos hc]

/-- C9 amended witness: nil input into the src/grpc.go `Unmarshal` and empty
input into the part_000 `Unmarshal` are both no-ops. -/
theorem unmarshal_nil_noop_w :
    V1.Unmarshal "application/grpc" none V1.Value.vother = (V1.Value.vother, V1.URes.ok) ∧
    V2.Unmarshal "application/grpc" [] V2.Value.vother = (V2.Value.vother, V2.URes.ok) :=
  unmarshal_nil_noop "application/grpc" none V1.Value.vother [] V2.Value.vother
    (Or.inl rfl) (Or.inl rfl)
